import Mathlib

/-!
Shallow embedding of the BE-saleman backend (Express/Mongoose, JavaScript).

JS numbers in the order/payment paths are modelled as `Int` (exact arithmetic);
the one claim whose truth depends on IEEE-754 double rounding (the totalAmount
accumulation) is additionally modelled with a dyadic-rational binary64 model
(`Dy` below).  JS strings are `String`; a missing/empty ("falsy") required
string field is modelled as `""`; genuinely nullable values are `Option`.
The document store is a Lean list; `Model.findOne`/`findById` are `List.find?`
and `doc.save()` is an id-keyed in-place update.  External collaborators
(jsonwebtoken verification, bcrypt, SHA-256, Math.random, Date.now, e-mail
delivery) are modelled as explicit function parameters or injective tagging
functions, as documented at each definition.
-/

deriving instance DecidableEq for Except

namespace BeSaleman

/-- List of words obtained from `s.split(" ")` in JavaScript, on `List Char`:
splitting on every single space character, keeping empty segments. -/
def splitSpace : List Char → List (List Char)
  | [] => [[]]
  | c :: cs =>
    let r := splitSpace cs
    if c = ' ' then [] :: r
    else
      match r with
      | [] => [[c]]
      | w :: ws => (c :: w) :: ws

/-- JavaScript `s.split(" ")`. -/
def jsSplit (s : String) : List String :=
  (splitSpace s.data).map fun l => ⟨l⟩

/-- JavaScript `s.startsWith(p)`. -/
def jsStartsWith (s p : String) : Bool :=
  p.data.isPrefixOf s.data

/-- Payload of an access token: what `jwt.sign({ id, role }, ...)` puts in and
what `jwt.verify` gives back (`req.user` in the middleware). -/
structure Payload where
  id : Nat
  role : String
deriving DecidableEq

/-- Errors surfaced by the authorization gate (middleware layer).  The
constructors `userNotFound` and `accountBlocked` are included so that the
spec-level contract of the gate (section 4.1) is expressible; whether the code
ever produces them is exactly what claim C1 is about. -/
inductive GateErr
  | unauthorized
  | invalidToken
  | accessDenied
  | userNotFound
  | accountBlocked
deriving DecidableEq

/-- Embedding of `verifyAccessToken` (src/middleware/authMiddleware.js:3-21).
`decode` models `jwt.verify(token, ACCESS_TOKEN_SECRET)`: `none` when the
verification throws (bad signature / expired / empty token), `some payload`
otherwise.  The middleware reads the `Authorization` header, requires the
`Bearer ` prefix (else 401), takes `authHeader.split(" ")[1]`, verifies it
(403 on failure) and attaches the decoded payload to the request. -/
def verifyAccessToken (decode : String → Option Payload) (header : Option String) :
    Except GateErr Payload :=
  match header with
  | none => .error .unauthorized
  | some h =>
    if jsStartsWith h "Bearer " then
      match (jsSplit h)[1]? with
      | none => .error .invalidToken
      | some tok =>
        match decode tok with
        | none => .error .invalidToken
        | some p => .ok p
    else .error .unauthorized

/-- Embedding of `checkRole(allowedRoles)` (src/middleware/roleMiddleware.js:5-16):
denies when `req.user.role` is falsy or not in the allow-list. -/
def checkRole (allowed : List String) (p : Payload) : Except GateErr Payload :=
  if p.role = "" then .error .accessDenied
  else if allowed.contains p.role then .ok p
  else .error .accessDenied

/-- The full authorization gate as routes compose it:
`verifyAccessToken` followed by `checkRole(...)`. -/
def authGate (decode : String → Option Payload) (allowed : List String)
    (header : Option String) : Except GateErr Payload :=
  match verifyAccessToken decode header with
  | .error e => .error e
  | .ok p => checkRole allowed p

/-- User record (src/models/user.js; the schema file itself is referenced by
every route through `require("../models/user")`).  `password` holds the bcrypt
hash, `resetCode` the SHA-256 hash of the password-reset OTP, `resetCodeExpiry`
a millisecond timestamp, `refreshToken` the single active session's token. -/
structure UserRec where
  id : Nat
  name : String
  phone : String
  address : String
  email : Option String
  password : String
  role : String
  isActive : Bool
  resetCode : Option Nat
  resetCodeExpiry : Option Int
  refreshToken : Option String
deriving DecidableEq

/-- Modelled from the spec: bcrypt's one-way password hash (an external
collaborator), as an injective tagging function; collision-freedom is assumed
(section 4.2 "Password stored only as a one-way hash"). -/
def hashPassword (pw : String) : String :=
  "bcrypt$" ++ pw

/-- JavaScript `bcrypt.compare(pw, storedHash)` under the `hashPassword`
model: the comparison succeeds exactly when the stored hash is the hash of
the supplied password. -/
def bcryptCompare (pw storedHash : String) : Bool :=
  hashPassword pw == storedHash

/-- Modelled from the spec: SHA-256 of the 6-digit reset code (an external
collaborator, `crypto.createHash("sha256")`), as an injective function on the
numeric code; collision-freedom on the code space is assumed. -/
def hashOTP (code : Nat) : Nat :=
  code + 1000000

/-- `User.findOne({ email })` for a present (string) email. -/
def findOneByEmail (users : List UserRec) (e : String) : Option UserRec :=
  users.find? fun u => u.email == some e

/-- `User.findOne({ email })` when `email` may be `undefined`: Mongoose strips
`undefined` query values, so `findOne({ email: undefined })` is `findOne({})`,
which returns the first stored document (this is what the signup handler's
duplicate-check executes when no email is supplied). -/
def findOneEmailOpt (users : List UserRec) : Option String → Option UserRec
  | some e => findOneByEmail users e
  | none => users.head?

/-- `User.findById(id)`. -/
def findUserById (users : List UserRec) (i : Nat) : Option UserRec :=
  users.find? fun u => u.id == i

/-- `user.save()`: persist the mutated document, keyed by its id. -/
def updateUser (users : List UserRec) (u : UserRec) : List UserRec :=
  users.map fun x => if x.id = u.id then u else x

/-- Error taxonomy of the auth routes (src/routes/auth.js), one constructor per
distinct failure response. -/
inductive AuthErr
  | validationError
  | weakPassword
  | alreadyExists
  | invalidCredentials
  | accountBlocked
  | userNotFound
  | invalidOrExpiredCode
  | tokenRequired
  | invalidToken
deriving DecidableEq

/-- Embedding of the password policy regex
`/^(?=.*[A-Za-z])(?=.*\d)(?=.*[^A-Za-z0-9]).{8,}$/` (src/routes/auth.js:12):
length at least 8, at least one ASCII letter, one digit, and one character
that is neither. -/
def validPassword (pw : String) : Bool :=
  decide (8 ≤ pw.length) && pw.data.any (fun c => c.isAlpha)
    && pw.data.any (fun c => c.isDigit) && pw.data.any (fun c => !c.isAlphanum)

/-- Signup request body (src/routes/auth.js:74 destructures
`{ name, phone, address, email, password }`).  A `role` field is carried in
the model request to express that the handler ignores any supplied role. -/
structure SignupReq where
  name : String
  phone : String
  address : String
  email : Option String
  password : String
  role : String
deriving DecidableEq

/-- Embedding of `POST /signup` (src/routes/auth.js:69-99): require
name/phone/address/password, enforce the password policy, reject when
`findOne({ email })` returns a document, then create the user with
`role: "admin"` hard-coded.  `newId` models the store-assigned `_id`. -/
def signup (users : List UserRec) (req : SignupReq) (newId : Nat) :
    Except AuthErr UserRec × List UserRec :=
  if req.name = "" ∨ req.phone = "" ∨ req.address = "" ∨ req.password = "" then
    (.error .validationError, users)
  else if !validPassword req.password then
    (.error .weakPassword, users)
  else
    match findOneEmailOpt users req.email with
    | some _ => (.error .alreadyExists, users)
    | none =>
      let u : UserRec :=
        { id := newId, name := req.name, phone := req.phone,
          address := req.address, email := req.email,
          password := hashPassword req.password, role := "admin",
          isActive := true, resetCode := none, resetCodeExpiry := none,
          refreshToken := none }
      (.ok u, users ++ [u])

/-- Embedding of `POST /login` (src/routes/auth.js:131-160): find by email
(`invalidCredentials` if absent), reject blocked accounts, compare the
password, then issue tokens and persist the new refresh token.  `newRefresh`
models the freshly signed refresh token; the returned payload is the access
token's `{ id, role }`. -/
def login (users : List UserRec) (email password newRefresh : String) :
    Except AuthErr Payload × List UserRec :=
  if email = "" ∨ password = "" then (.error .validationError, users)
  else
    match findOneByEmail users email with
    | none => (.error .invalidCredentials, users)
    | some u =>
      if u.isActive = false then (.error .accountBlocked, users)
      else if bcryptCompare password u.password then
        let u2 := { u with refreshToken := some newRefresh }
        (.ok ⟨u.id, u.role⟩, updateUser users u2)
      else (.error .invalidCredentials, users)

/-- Embedding of `POST /forgot-password` (src/routes/auth.js:187-212): find the
user by email (404 if absent), store the SHA-256 hash of the freshly generated
6-digit code together with a 10-minute expiry, and dispatch the plaintext code
by e-mail (external collaborator, not part of the stored state).  `code` is
the generated `Math.floor(100000 + Math.random() * 900000)` value and `now`
is `Date.now()` in milliseconds. -/
def forgotPassword (users : List UserRec) (email : String) (code : Nat) (now : Int) :
    Except AuthErr Unit × List UserRec :=
  if email = "" then (.error .validationError, users)
  else
    match findOneByEmail users email with
    | none => (.error .userNotFound, users)
    | some u =>
      let u2 := { u with resetCode := some (hashOTP code),
                         resetCodeExpiry := some (now + 10 * 60 * 1000) }
      (.ok (), updateUser users u2)

/-- Embedding of `POST /verify-code` (src/routes/auth.js:243-264): hash the
supplied code and fail unless the user exists, the stored hash matches, and
the stored expiry exists and is not in the past (`resetCodeExpiry < new Date()`
rejects).  `code` is `none` when the request body lacks the field. -/
def verifyCode (users : List UserRec) (email : String) (code : Option Nat) (now : Int) :
    Except AuthErr Unit :=
  if email = "" then .error .validationError
  else
    match code with
    | none => .error .validationError
    | some c =>
      match findOneByEmail users email with
      | none => .error .invalidOrExpiredCode
      | some u =>
        if (u.resetCode == some (hashOTP c))
            && (match u.resetCodeExpiry with
                | none => false
                | some exp => decide (now ≤ exp)) then
          .ok ()
        else .error .invalidOrExpiredCode

/-- Embedding of `POST /change-password` (src/routes/auth.js:362-411), the
route body after `verifyAccessToken` attached `req.user.id = uid`: require
both fields, validate the new password against the policy, load the user by
id, compare the old password, then store the new hash and null the stored
refresh token. -/
def changePassword (users : List UserRec) (uid : Nat) (oldPassword newPassword : String) :
    Except AuthErr Unit × List UserRec :=
  if oldPassword = "" ∨ newPassword = "" then (.error .validationError, users)
  else if !validPassword newPassword then (.error .weakPassword, users)
  else
    match findUserById users uid with
    | none => (.error .userNotFound, users)
    | some u =>
      if bcryptCompare oldPassword u.password then
        let u2 := { u with password := hashPassword newPassword, refreshToken := none }
        (.ok (), updateUser users u2)
      else (.error .invalidCredentials, users)

/-- Embedding of `POST /refresh-token` (src/routes/auth.js:447-470): require
the token, look the user up by the stored refresh-token value (403 if none),
cryptographically verify the token (`jwtValid` models
`jwt.verify(refreshToken, REFRESH_TOKEN_SECRET)` succeeding), and on success
issue a new access token with payload `{ id, role }`; nothing is saved. -/
def refreshRoute (users : List UserRec) (tok : String) (jwtValid : String → Bool) :
    Except AuthErr Payload × List UserRec :=
  if tok = "" then (.error .tokenRequired, users)
  else
    match users.find? (fun u => u.refreshToken == some tok) with
    | none => (.error .invalidToken, users)
    | some u =>
      if jwtValid tok then (.ok ⟨u.id, u.role⟩, users)
      else (.error .invalidToken, users)

/-- Item (product) record (src/models/Item.js): name, category reference,
price and stock quantity.  `price` and `quantity` are JS numbers, embedded as
exact integers (see the `Dy` model below for the one claim where binary64
rounding matters); `categoryType` is irrelevant to the order flow and omitted. -/
structure Product where
  id : Nat
  name : String
  price : Int
  quantity : Int
deriving DecidableEq

/-- Shop record (src/unnamed/part_005, the Shop schema); only the fields the
order route reads (`_id`, `isActive`) are carried. -/
structure ShopRec where
  id : Nat
  isActive : Bool
deriving DecidableEq

/-- One element of the `items` array of a `POST /order` body.  `productId` is
`none` when the field is missing/falsy, `quantity` is `none` when
`quantity == null`. -/
structure ReqItem where
  productId : Option Nat
  quantity : Option Int
deriving DecidableEq

/-- Order line as persisted (src/models/Order.js `orderLineSchema`). -/
structure OrderLine where
  product : Nat
  productName : String
  quantity : Int
  unitPrice : Int
  lineTotal : Int
deriving DecidableEq

/-- Order document (src/models/Order.js `orderSchema`).  `id` is the
store-assigned `_id` (an ObjectId hex string); `amountPaid` defaults to 0. -/
structure OrderRec where
  id : String
  shop : Nat
  salesman : Nat
  orderLines : List OrderLine
  totalAmount : Int
  paymentType : String
  paymentTypeId : Nat
  paymentAmount : Int
  amountPaid : Int
deriving DecidableEq

/-- Error taxonomy of the order routes (src/routes/order.js), one constructor
per distinct failure response; `insufficientStock` carries the product name
the message interpolates, `productNotFound` the requested id. -/
inductive OrderErr
  | validationError
  | shopNotFound
  | shopInactive
  | productNotFound (productId : Nat)
  | insufficientStock (productName : String)
  | orderNotFound
deriving DecidableEq

/-- `Item.findById(productId)`. -/
def findProduct (ps : List Product) (pid : Nat) : Option Product :=
  ps.find? fun p => p.id == pid

/-- `product.save()`: persist the mutated product, keyed by its id. -/
def saveProduct (ps : List Product) (p : Product) : List Product :=
  ps.map fun x => if x.id = p.id then p else x

/-- One iteration of the `for (const line of items)` loop of `POST /order`
(src/routes/order.js:195-230): validate `productId`/`quantity`, load the
product, check stock, snapshot name and price, build the order line, and
decrement-and-save the product's stock.  Returns the built line and the
product store as persisted after this line. -/
def lineStep (ps : List Product) (it : ReqItem) : Except OrderErr (OrderLine × List Product) :=
  match it.productId, it.quantity with
  | none, _ => .error .validationError
  | some _, none => .error .validationError
  | some pid, some q =>
    if q < 1 then .error .validationError
    else
      match findProduct ps pid with
      | none => .error (.productNotFound pid)
      | some p =>
        if p.quantity < q then .error (.insufficientStock p.name)
        else
          let line : OrderLine :=
            { product := p.id, productName := p.name, quantity := q,
              unitPrice := p.price, lineTotal := q * p.price }
          .ok (line, saveProduct ps { p with quantity := p.quantity - q })

/-- The whole line loop, in sequence: each line is fully processed (including
the persisted stock decrement) before the next is examined.  The second
component is the product store as left behind, also when a later line fails. -/
def processLines (ps : List Product) :
    List ReqItem → Except OrderErr (List OrderLine × Int) × List Product
  | [] => (.ok ([], 0), ps)
  | it :: rest =>
    match lineStep ps it with
    | .error e => (.error e, ps)
    | .ok (line, ps1) =>
      match processLines ps1 rest with
      | (.error e, ps2) => (.error e, ps2)
      | (.ok (lines, total), ps2) => (.ok (line :: lines, line.lineTotal + total), ps2)

/-- State touched by the order routes: catalog, shop registry and order ledger. -/
structure OrderDB where
  products : List Product
  shops : List ShopRec
  orders : List OrderRec
deriving DecidableEq

/-- Body of `POST /order`.  `shopId` is `none` when falsy; `items` is `none`
when missing or not an array; `paymentType` is `""` when falsy;
`paymentAmount` is `none` when `Number(paymentAmount)` is NaN (missing or
non-numeric). -/
structure OrderReq where
  shopId : Option Nat
  items : Option (List ReqItem)
  paymentType : String
  paymentAmount : Option Int
deriving DecidableEq

/-- The fixed mapping `{ half: 1, full: 2, cashOnDelivery: 3 }`
(src/routes/order.js:163). -/
def paymentTypeToId : String → Nat
  | "half" => 1
  | "full" => 2
  | "cashOnDelivery" => 3
  | _ => 0

/-- Embedding of the `POST /order` handler (src/routes/order.js:154-254) after
the gate attached `req.user.id = salesmanId`: request validation, payment-type
mapping, shop checks, the sequential line loop, then order creation.
`newOrderId` models the store-assigned `_id`.  The returned `OrderDB` is the
persistent state as left behind, including the stock decrements of lines that
were processed before a later line failed. -/
def placeOrder (db : OrderDB) (salesmanId : Nat) (req : OrderReq) (newOrderId : String) :
    Except OrderErr OrderRec × OrderDB :=
  match req.shopId, req.items with
  | none, _ => (.error .validationError, db)
  | some _, none => (.error .validationError, db)
  | some sid, some items =>
    if items = [] then (.error .validationError, db)
    else if !(["half", "full", "cashOnDelivery"].contains req.paymentType) then
      (.error .validationError, db)
    else
      match req.paymentAmount with
      | none => (.error .validationError, db)
      | some amount =>
        if amount < 0 then (.error .validationError, db)
        else
          match db.shops.find? (fun s => s.id == sid) with
          | none => (.error .shopNotFound, db)
          | some shop =>
            if shop.isActive = false then (.error .shopInactive, db)
            else
              match processLines db.products items with
              | (.error e, ps1) => (.error e, { db with products := ps1 })
              | (.ok (lines, total), ps1) =>
                let order : OrderRec :=
                  { id := newOrderId, shop := sid, salesman := salesmanId,
                    orderLines := lines, totalAmount := total,
                    paymentType := req.paymentType,
                    paymentTypeId := paymentTypeToId req.paymentType,
                    paymentAmount := amount, amountPaid := 0 }
                (.ok order, { db with products := ps1, orders := db.orders ++ [order] })

/-- Hexadecimal digit test, as `mongoose.Types.ObjectId.isValid` applies to
24-character strings. -/
def isHexChar (c : Char) : Bool :=
  c.isDigit || ('a' ≤ c && c ≤ 'f') || ('A' ≤ c && c ≤ 'F')

/-- Modelled from the spec: `mongoose.Types.ObjectId.isValid(orderId)` (an
external collaborator) on strings, which accepts any 12-character string or a
24-character hex string. -/
def isValidObjectId (s : String) : Bool :=
  s.length == 12 || (s.length == 24 && s.data.all isHexChar)

/-- `order.save()`: persist the mutated order, keyed by its id. -/
def saveOrder (os : List OrderRec) (o : OrderRec) : List OrderRec :=
  os.map fun x => if x.id = o.id then o else x

/-- Embedding of the `PATCH /admin/order/:orderId/payment` handler
(src/routes/order.js:391-441): validate the id format, coerce `amountPaid`
(`none` models `amountPaid != null ? Number(amountPaid) : NaN` being NaN),
reject negatives, load the order (404 if absent), reject amounts above
`totalAmount`, and replace — not add to — the stored `amountPaid`. -/
def recordPayment (db : OrderDB) (orderId : String) (amountPaid : Option Int) :
    Except OrderErr OrderRec × OrderDB :=
  if !isValidObjectId orderId then (.error .validationError, db)
  else
    match amountPaid with
    | none => (.error .validationError, db)
    | some amount =>
      if amount < 0 then (.error .validationError, db)
      else
        match db.orders.find? (fun o => o.id == orderId) with
        | none => (.error .orderNotFound, db)
        | some o =>
          if o.totalAmount < amount then (.error .validationError, db)
          else
            let o2 := { o with amountPaid := amount }
            (.ok o2, { db with orders := saveOrder db.orders o2 })

/-- Sum, over the given order lines, of the quantities requested for the given
product: the total stock decrement an order applies to that product. -/
def decSum : List OrderLine → Nat → Int
  | [], _ => 0
  | l :: ls, pid => (if l.product = pid then l.quantity else 0) + decSum ls pid

/-- Exact sum of `quantity * unitPrice` over order lines. -/
def linesExactTotal : List OrderLine → Int
  | [] => 0
  | l :: ls => l.quantity * l.unitPrice + linesExactTotal ls

/-- Bit length with explicit fuel (the number itself suffices), so that the
definition is structurally recursive and kernel-evaluable. -/
def bitlenAux : Nat → Nat → Nat
  | 0, _ => 0
  | fuel + 1, n => if n = 0 then 0 else bitlenAux fuel (n / 2) + 1

/-- Number of binary digits of `n` (0 for 0). -/
def bitlen (n : Nat) : Nat :=
  bitlenAux n n

/-- Dyadic rational `m * 2 ^ e`: the value set of IEEE-754 binary64 (ignoring
infinities and NaN).  Every JS number the order route manipulates is such a
value. -/
structure Dy where
  m : Int
  e : Int
deriving DecidableEq

/-- Exact rational value of a dyadic. -/
def Dy.val (a : Dy) : ℚ :=
  (a.m : ℚ) * 2 ^ a.e

/-- Exact product of dyadics. -/
def Dy.mul (a b : Dy) : Dy :=
  ⟨a.m * b.m, a.e + b.e⟩

/-- Exact sum of dyadics (align to the smaller exponent). -/
def Dy.addExact (a b : Dy) : Dy :=
  if a.e ≤ b.e then ⟨a.m + b.m * 2 ^ (b.e - a.e).toNat, a.e⟩
  else ⟨a.m * 2 ^ (a.e - b.e).toNat + b.m, b.e⟩

/-- Round `m / 2 ^ shift` to the nearest integer, ties to even. -/
def roundNearestEven (m : Nat) (shift : Nat) : Nat :=
  let q := m / 2 ^ shift
  let r := m % 2 ^ shift
  if 2 * r < 2 ^ shift then q
  else if 2 ^ shift < 2 * r then q + 1
  else if q % 2 = 0 then q else q + 1

/-- Binary64 rounding (round to nearest, ties to even) of a dyadic value:
keep at most 53 significand bits.  Overflow and subnormals are ignored — the
values arising in the claims are all normal and far from the exponent range
ends, where this is exact IEEE-754 double rounding. -/
def Dy.fl (a : Dy) : Dy :=
  let n := bitlen a.m.natAbs
  if n ≤ 53 then a
  else
    let shift := n - 53
    let mq := roundNearestEven a.m.natAbs shift
    ⟨if a.m < 0 then -(mq : Int) else (mq : Int), a.e + shift⟩

/-- JS `x + y` on numbers: exact sum, rounded to binary64. -/
def flAdd (a b : Dy) : Dy :=
  Dy.fl (Dy.addExact a b)

/-- JS `x * y` on numbers: exact product, rounded to binary64. -/
def flMul (a b : Dy) : Dy :=
  Dy.fl (Dy.mul a b)

/-- The `totalAmount` accumulation of `POST /order`
(src/routes/order.js:216-226) under JS number (binary64) semantics: starting
from `let totalAmount = 0`, each line contributes
`lineTotal = quantity * unitPrice` and `totalAmount += lineTotal`, every
operation rounding to binary64.  Each list entry is a `(quantity, unitPrice)`
pair of JS numbers. -/
def totalAmountFloat (lines : List (Dy × Dy)) : Dy :=
  lines.foldl (fun acc qp => flAdd acc (flMul qp.1 qp.2)) ⟨0, 0⟩

/-- The same accumulation under exact arithmetic: what the sum of
`quantity * unitPrice` would be with no rounding. -/
def totalAmountExactDy (lines : List (Dy × Dy)) : Dy :=
  lines.foldl (fun acc qp => Dy.addExact acc (Dy.mul qp.1 qp.2)) ⟨0, 0⟩

/-- The binary64 value of the JS literal `0.1` (a product price):
`3602879701896397 * 2 ^ (-55)`. -/
def dblPointOne : Dy :=
  ⟨3602879701896397, -55⟩

/-- The binary64 value of the JS literal `0.4` (a product price):
`3602879701896397 * 2 ^ (-53)`. -/
def dblPointFour : Dy :=
  ⟨3602879701896397, -53⟩

/-- A two-line order: one unit at price `0.1`, one unit at price `0.4`. -/
def driftLines : List (Dy × Dy) :=
  [(⟨1, 0⟩, dblPointOne), (⟨1, 0⟩, dblPointFour)]

/-- Concrete `jwt.verify` behaviour for the gate scenarios: three tokens that
verify to payloads of users 1, 2 and 3; everything else fails verification. -/
def demoDecode : String → Option Payload := fun t =>
  if t = "tok1" then some ⟨1, "salesman"⟩
  else if t = "tok2" then some ⟨2, "admin"⟩
  else if t = "tok3" then some ⟨3, "admin"⟩
  else none

/-- A blocked salesman account (isActive = false). -/
def demoUser1 : UserRec :=
  ⟨1, "Sam", "0301", "addr one", some "s@x.com", hashPassword "Passw0rd!",
   "salesman", false, none, none, none⟩

/-- An active admin account holding the refresh token "rtok". -/
def demoUser2 : UserRec :=
  ⟨2, "Ada", "0302", "addr two", some "a@x.com", hashPassword "Adminpw1!",
   "admin", true, none, none, some "rtok"⟩

/-- A two-user credential store; there is no user with id 3. -/
def demoUsers : List UserRec :=
  [demoUser1, demoUser2]

/-- A signup request carrying role "salesman", which the handler ignores. -/
def demoSignupReq : SignupReq :=
  ⟨"Ann", "0303", "addr three", some "new@x.com", "Passw0rd!", "salesman"⟩

/-- The user the demo signup creates: role is "admin". -/
def demoNewUser : UserRec :=
  ⟨10, "Ann", "0303", "addr three", some "new@x.com", hashPassword "Passw0rd!",
   "admin", true, none, none, none⟩

/-- Catalog with two products: Soap (price 100, stock 10), Oil (price 50, stock 4). -/
def demoProducts : List Product :=
  [⟨1, "Soap", 100, 10⟩, ⟨2, "Oil", 50, 4⟩]

/-- One active shop with id 5. -/
def demoShops : List ShopRec :=
  [⟨5, true⟩]

/-- Initial order-service state: the demo catalog and shop, empty ledger. -/
def demoOrderDB : OrderDB :=
  ⟨demoProducts, demoShops, []⟩

/-- A well-formed ObjectId string used as the store-assigned order id. -/
def demoOid : String :=
  "aaaaaaaaaaaaaaaaaaaaaaaa"

/-- Order request with the same product on two lines (3 + 5 units of Soap). -/
def demoReqTwice : OrderReq :=
  ⟨some 5, some [⟨some 1, some 3⟩, ⟨some 1, some 5⟩], "full", some 800⟩

/-- The order `demoReqTwice` creates. -/
def demoOrderOut : OrderRec :=
  ⟨demoOid, 5, 7, [⟨1, "Soap", 3, 100, 300⟩, ⟨1, "Soap", 5, 100, 500⟩],
   800, "full", 2, 800, 0⟩

/-- The order-service state `demoReqTwice` leaves behind: Soap stock 10-8=2. -/
def demoDBOut : OrderDB :=
  ⟨[⟨1, "Soap", 100, 2⟩, ⟨2, "Oil", 50, 4⟩], demoShops, [demoOrderOut]⟩

/-- An existing order awaiting payment: total 300, nothing paid yet. -/
def demoOrder0 : OrderRec :=
  ⟨demoOid, 5, 7, [⟨1, "Soap", 3, 100, 300⟩], 300, "half", 1, 150, 0⟩

/-- Order-service state holding `demoOrder0`. -/
def demoPayDB : OrderDB :=
  ⟨demoProducts, demoShops, [demoOrder0]⟩

/-!
Theorems.  One principal theorem per claim C1-C10 of the specification,
together with counterexamples and concrete witnesses.
-/

/-- Claim C1, counterexample: the authorization gate admits requests from a
blocked account and from a deleted account.  With the demo credential store,
a request bearing a valid token for user 1 — whose `isActive` is `false` —
passes the gate (`.ok`) instead of failing with `AccountBlocked`, and a
request bearing a valid token for user 3 — for whom no record exists —
passes instead of failing with `UserNotFound`: the gate performs no user
lookup at all. -/
theorem c1_gate_admits_blocked_and_deleted :
    authGate demoDecode ["admin", "salesman"] (some "Bearer tok1") = .ok ⟨1, "salesman"⟩
      ∧ (findUserById demoUsers 1).map (fun u => u.isActive) = some false
      ∧ authGate demoDecode ["admin", "salesman"] (some "Bearer tok3") = .ok ⟨3, "admin"⟩
      ∧ findUserById demoUsers 3 = none := by
  decide

/-- Claim C1, amended: the Authorization Gate decodes the bearer token and
attaches the token's own `{id, role}` payload to the request context without
resolving the user record; its outcome is fully determined by the header, the
token decoder and the route's allow-list, so a blocked or deleted account
holding an unexpired token still reaches route bodies. -/
theorem c1_gate_decodes_without_user_lookup (decode : String → Option Payload)
    (allowed : List String) (header : Option String) (p : Payload) :
    authGate decode allowed header = .ok p ↔
      ∃ h tok, header = some h ∧ jsStartsWith h "Bearer " = true ∧
        (jsSplit h)[1]? = some tok ∧ decode tok = some p ∧
        p.role ≠ "" ∧ allowed.contains p.role = true := by
  cases header with
  | none =>
    constructor
    · intro hcontra
      simp [authGate, verifyAccessToken] at hcontra
    · rintro ⟨x, y, hx, -⟩
      exact Option.noConfusion hx
  | some h =>
    by_cases hb : jsStartsWith h "Bearer " = true
    · cases hsp : (jsSplit h)[1]? with
      | none =>
        have hgate : authGate decode allowed (some h) = .error .invalidToken := by
          simp [authGate, verifyAccessToken, hb, hsp]
        rw [hgate]
        constructor
        · intro hcontra
          exact Except.noConfusion hcontra
        · rintro ⟨x, y, hx, -, hy, -⟩
          injection hx with hx'
          subst hx'
          rw [hsp] at hy
          exact Option.noConfusion hy
      | some tok =>
        cases hd : decode tok with
        | none =>
          have hgate : authGate decode allowed (some h) = .error .invalidToken := by
            simp [authGate, verifyAccessToken, hb, hsp, hd]
          rw [hgate]
          constructor
          · intro hcontra
            exact Except.noConfusion hcontra
          · rintro ⟨x, y, hx, -, hy, hdy, -⟩
            injection hx with hx'
            subst hx'
            rw [hsp] at hy
            injection hy with hy'
            subst hy'
            rw [hd] at hdy
            exact Option.noConfusion hdy
        | some q =>
          have hgate : authGate decode allowed (some h) = checkRole allowed q := by
            simp [authGate, verifyAccessToken, hb, hsp, hd]
          rw [hgate]
          by_cases hrole : q.role = ""
          · rw [checkRole, if_pos hrole]
            constructor
            · intro hcontra
              exact Except.noConfusion hcontra
            · rintro ⟨x, y, hx, -, hy, hdy, hne, -⟩
              injection hx with hx'
              subst hx'
              rw [hsp] at hy
              injection hy with hy'
              subst hy'
              rw [hd] at hdy
              injection hdy with hq
              exact absurd (hq ▸ hrole) hne
          · by_cases hall : allowed.contains q.role = true
            · rw [checkRole, if_neg hrole, if_pos (by exact hall)]
              constructor
              · intro hok
                injection hok with hq
                subst hq
                exact ⟨h, tok, rfl, hb, hsp, hd, hrole, hall⟩
              · rintro ⟨x, y, hx, -, hy, hdy, -, -⟩
                injection hx with hx'
                subst hx'
                rw [hsp] at hy
                injection hy with hy'
                subst hy'
                rw [hd] at hdy
                injection hdy with hq
                rw [hq]
            · rw [checkRole, if_neg hrole, if_neg (by exact hall)]
              constructor
              · intro hcontra
                exact Except.noConfusion hcontra
              · rintro ⟨x, y, hx, -, hy, hdy, -, hc⟩
                injection hx with hx'
                subst hx'
                rw [hsp] at hy
                injection hy with hy'
                subst hy'
                rw [hd] at hdy
                injection hdy with hq
                exact absurd (hq ▸ hc) hall
    · have hgate : authGate decode allowed (some h) = .error .unauthorized := by
        simp [authGate, verifyAccessToken, hb]
      rw [hgate]
      constructor
      · intro hcontra
        exact Except.noConfusion hcontra
      · rintro ⟨x, y, hx, hbx, -⟩
        injection hx with hx'
        subst hx'
        exact absurd hbx hb

/-- Claim C1, witness for the amended theorem: a well-formed header whose
token decodes to an allowed role passes the gate with the decoded payload. -/
theorem c1_gate_witness :
    authGate demoDecode ["admin", "salesman"] (some "Bearer tok2") = .ok ⟨2, "admin"⟩ :=
  (c1_gate_decodes_without_user_lookup demoDecode ["admin", "salesman"]
      (some "Bearer tok2") ⟨2, "admin"⟩).mpr
    ⟨"Bearer tok2", "tok2", rfl, by decide, by decide, by decide, by decide, by decide⟩

/-- The product returned by `findProduct ps pid` carries id `pid`. -/
theorem findProduct_id {ps : List Product} {pid : Nat} {p : Product}
    (h : findProduct ps pid = some p) : p.id = pid := by
  have := List.find?_some h
  simpa using this

/-- Saving a product makes the lookup of its id return it (provided a product
with that id was stored). -/
theorem findProduct_save_self (ps : List Product) (p : Product) :
    findProduct (saveProduct ps p) p.id = (findProduct ps p.id).map fun _ => p := by
  induction ps with
  | nil => rfl
  | cons x xs ih =>
    by_cases hx : x.id = p.id
    · rw [findProduct, saveProduct, List.map_cons, if_pos hx,
        List.find?_cons_of_pos _ (by simp), findProduct,
        List.find?_cons_of_pos _ (by simp [hx])]
      rfl
    · rw [findProduct, saveProduct, List.map_cons, if_neg hx,
        List.find?_cons_of_neg _ (by simp [hx]), findProduct,
        List.find?_cons_of_neg _ (by simp [hx])]
      exact ih

/-- Saving a product leaves lookups of other ids unchanged. -/
theorem findProduct_save_other (ps : List Product) (p : Product) (pid : Nat)
    (hne : pid ≠ p.id) :
    findProduct (saveProduct ps p) pid = findProduct ps pid := by
  induction ps with
  | nil => rfl
  | cons x xs ih =>
    by_cases hx : x.id = p.id
    · rw [findProduct, saveProduct, List.map_cons, if_pos hx,
        List.find?_cons_of_neg _ (by simp [Ne.symm hne]), findProduct,
        List.find?_cons_of_neg _ (by simp [hx, Ne.symm hne])]
      exact ih
    · by_cases hxp : x.id = pid
      · rw [findProduct, saveProduct, List.map_cons, if_neg hx,
          List.find?_cons_of_pos _ (by simp [hxp]), findProduct,
          List.find?_cons_of_pos _ (by simp [hxp])]
      · rw [findProduct, saveProduct, List.map_cons, if_neg hx,
          List.find?_cons_of_neg _ (by simp [hxp]), findProduct,
          List.find?_cons_of_neg _ (by simp [hxp])]
        exact ih

/-- Inversion of a successful `lineStep`: the shape of the built line and of
the persisted store. -/
theorem lineStep_ok_inv {ps : List Product} {it : ReqItem} {line : OrderLine}
    {psA : List Product} (h : lineStep ps it = .ok (line, psA)) :
    ∃ pid q p0, it.productId = some pid ∧ it.quantity = some q ∧ 1 ≤ q ∧
      findProduct ps pid = some p0 ∧ q ≤ p0.quantity ∧
      line = ⟨p0.id, p0.name, q, p0.price, q * p0.price⟩ ∧
      psA = saveProduct ps { p0 with quantity := p0.quantity - q } := by
  obtain ⟨pidO, qO⟩ := it
  cases pidO with
  | none => simp [lineStep] at h
  | some pid =>
    cases qO with
    | none => simp [lineStep] at h
    | some q =>
      simp only [lineStep] at h
      by_cases h1 : q < 1
      · rw [if_pos h1] at h; exact Except.noConfusion h
      · rw [if_neg h1] at h
        cases hp : findProduct ps pid with
        | none => rw [hp] at h; exact Except.noConfusion h
        | some p0 =>
          simp only [hp] at h
          by_cases h2 : p0.quantity < q
          · rw [if_pos h2] at h; exact Except.noConfusion h
          · rw [if_neg h2] at h
            injection h with h'
            injection h' with hline hps
            exact ⟨pid, q, p0, rfl, rfl, by omega, hp, by omega, hline.symm, hps.symm⟩

/-- A failing line leaves the store exactly as the preceding lines left it. -/
theorem processLines_cons_err {ps : List Product} {it : ReqItem}
    {rest : List ReqItem} {e : OrderErr} (h : lineStep ps it = .error e) :
    processLines ps (it :: rest) = (.error e, ps) := by
  rw [processLines, h]

/-- Processing a list whose first segment succeeds and whose continuation
fails propagates the failure together with the continuation's store. -/
theorem processLines_append_err {xs ys : List ReqItem} {ps ps1 ps2 : List Product}
    {lines : List OrderLine} {t : Int} {e : OrderErr}
    (hok : processLines ps xs = (.ok (lines, t), ps1))
    (herr : processLines ps1 ys = (.error e, ps2)) :
    processLines ps (xs ++ ys) = (.error e, ps2) := by
  induction xs generalizing ps lines t with
  | nil =>
    rw [processLines] at hok
    injection hok with hok1 hok2
    injection hok1 with hok1'
    injection hok1' with hl ht
    subst hok2
    simpa using herr
  | cons it xs ih =>
    rw [processLines] at hok
    cases hstep : lineStep ps it with
    | error e2 =>
      simp only [hstep] at hok
      exact Except.noConfusion (congrArg Prod.fst hok)
    | ok v =>
      obtain ⟨line, psA⟩ := v
      simp only [hstep] at hok
      cases hrec : processLines psA xs with
      | mk r psB =>
        cases r with
        | error e2 =>
          simp only [hrec] at hok
          exact Except.noConfusion (congrArg Prod.fst hok)
        | ok v2 =>
          obtain ⟨ls, tt⟩ := v2
          simp only [hrec] at hok
          injection hok with hok1 hok2
          subst hok2
          rw [List.cons_append, processLines]
          simp only [hstep, ih hrec]

/-- Stock accounting of the line loop: for every product present before a
successful run, the product afterwards has the same id, name and price, its
quantity is the old quantity minus the total quantity the produced lines
request for it, and it is non-negative whenever the old quantity was. -/
theorem processLines_stock {items : List ReqItem} {ps ps1 : List Product}
    {lines : List OrderLine} {t : Int}
    (h : processLines ps items = (.ok (lines, t), ps1)) :
    ∀ pid p, findProduct ps pid = some p →
      ∃ p2, findProduct ps1 pid = some p2 ∧ p2.id = p.id ∧ p2.name = p.name ∧
        p2.price = p.price ∧ p2.quantity = p.quantity - decSum lines pid ∧
        (0 ≤ p.quantity → 0 ≤ p2.quantity) := by
  induction items generalizing ps lines t with
  | nil =>
    rw [processLines] at h
    injection h with h1 h2
    injection h1 with h1'
    injection h1' with hl ht
    subst h2
    subst hl
    intro pid p hp
    exact ⟨p, hp, rfl, rfl, rfl, by rw [decSum]; omega, fun hq => hq⟩
  | cons it rest ih =>
    rw [processLines] at h
    cases hstep : lineStep ps it with
    | error e2 =>
      simp only [hstep] at h
      exact Except.noConfusion (congrArg Prod.fst h)
    | ok v =>
      obtain ⟨line, psA⟩ := v
      simp only [hstep] at h
      cases hrec : processLines psA rest with
      | mk r psB =>
        cases r with
        | error e2 =>
          simp only [hrec] at h
          exact Except.noConfusion (congrArg Prod.fst h)
        | ok v2 =>
          obtain ⟨ls, tt⟩ := v2
          simp only [hrec] at h
          injection h with h1 h2
          subst h2
          injection h1 with h1'
          injection h1' with hl ht
          subst hl
          obtain ⟨pid0, q, p0, hpid, hq, h1q, hp0, hqle, hline, hpsA⟩ := lineStep_ok_inv hstep
          have hp0id : p0.id = pid0 := findProduct_id hp0
          intro pid p hp
          by_cases hcase : pid = p0.id
          · subst hcase

            have hpp0 : p = p0 := by
              rw [hp0id] at hp
              rw [hp0] at hp
              exact (Option.some.inj hp).symm
            have hfindA : findProduct psA p0.id = some { p0 with quantity := p0.quantity - q } := by
              rw [hpsA]
              have := findProduct_save_self ps { p0 with quantity := p0.quantity - q }
              simp only at this
              rw [this, hp0id, hp0]
              rfl
            obtain ⟨p2, hf2, hid2, hnm2, hpr2, hqt2, hnn2⟩ := ih hrec p0.id _ hfindA
            refine ⟨p2, hf2, ?_, ?_, ?_, ?_, ?_⟩
            · rw [hid2, hpp0]
            · rw [hnm2, hpp0]
            · rw [hpr2, hpp0]
            · rw [hqt2, hpp0, hline]
              show p0.quantity - q - decSum ls p0.id
                  = p0.quantity - ((if p0.id = p0.id then q else 0) + decSum ls p0.id)
              rw [if_pos rfl]
              omega
            · intro _
              refine hnn2 ?_
              show (0 : Int) ≤ p0.quantity - q
              omega
          · have hfindA : findProduct psA pid = findProduct ps pid := by
              rw [hpsA]
              exact findProduct_save_other ps _ pid (by simpa using hcase)
            obtain ⟨p2, hf2, hid2, hnm2, hpr2, hqt2, hnn2⟩ := ih hrec pid p (by rw [hfindA, hp])
            refine ⟨p2, hf2, hid2, hnm2, hpr2, ?_, hnn2⟩
            rw [hqt2, hline]
            show p.quantity - decSum ls pid
                = p.quantity - ((if p0.id = pid then q else 0) + decSum ls pid)
            rw [if_neg (fun hc => hcase hc.symm)]
            omega

/-- Total accounting of the line loop: the accumulated total is the exact sum
of `quantity * unitPrice` over the produced lines, and each produced line's
`lineTotal` is its `quantity * unitPrice`. -/
theorem processLines_total {items : List ReqItem} {ps ps1 : List Product}
    {lines : List OrderLine} {t : Int}
    (h : processLines ps items = (.ok (lines, t), ps1)) :
    t = linesExactTotal lines ∧ ∀ l ∈ lines, l.lineTotal = l.quantity * l.unitPrice := by
  induction items generalizing ps lines t with
  | nil =>
    rw [processLines] at h
    injection h with h1 h2
    injection h1 with h1'
    injection h1' with hl ht
    subst hl
    exact ⟨ht.symm, by simp⟩
  | cons it rest ih =>
    rw [processLines] at h
    cases hstep : lineStep ps it with
    | error e2 =>
      simp only [hstep] at h
      exact Except.noConfusion (congrArg Prod.fst h)
    | ok v =>
      obtain ⟨line, psA⟩ := v
      simp only [hstep] at h
      cases hrec : processLines psA rest with
      | mk r psB =>
        cases r with
        | error e2 =>
          simp only [hrec] at h
          exact Except.noConfusion (congrArg Prod.fst h)
        | ok v2 =>
          obtain ⟨ls, tt⟩ := v2
          simp only [hrec] at h
          injection h with h1 h2
          subst h2
          injection h1 with h1'
          injection h1' with hl ht
          subst hl
          obtain ⟨pid0, q, p0, hpid, hq, h1q, hp0, hqle, hline, hpsA⟩ := lineStep_ok_inv hstep
          obtain ⟨iht, ihl⟩ := ih hrec
          constructor
          · rw [← ht, iht, linesExactTotal, hline]
          · intro l hl
            cases hl with
            | head => rw [hline]
            | tail _ hmem => exact ihl l hmem

/-- Inversion of a successful `placeOrder`: the request fields, the line-loop
result, the created order's shape, and the final state. -/
theorem placeOrder_ok_inv {db : OrderDB} {uid : Nat} {req : OrderReq} {nid : String}
    {order : OrderRec} {db2 : OrderDB}
    (h : placeOrder db uid req nid = (.ok order, db2)) :
    ∃ sid items amount lines total ps1,
      req.shopId = some sid ∧ req.items = some items ∧ req.paymentAmount = some amount ∧
      0 ≤ amount ∧
      processLines db.products items = (.ok (lines, total), ps1) ∧
      order = { id := nid, shop := sid, salesman := uid, orderLines := lines,
                totalAmount := total, paymentType := req.paymentType,
                paymentTypeId := paymentTypeToId req.paymentType,
                paymentAmount := amount, amountPaid := 0 } ∧
      db2 = { db with products := ps1, orders := db.orders ++ [order] } := by
  obtain ⟨sidO, itemsO, pt, amtO⟩ := req
  cases sidO with
  | none => simp [placeOrder] at h
  | some sid =>
    cases itemsO with
    | none => simp [placeOrder] at h
    | some items =>
      simp only [placeOrder] at h
      by_cases hne : items = []
      · rw [if_pos hne] at h
        exact Except.noConfusion (congrArg Prod.fst h)
      · rw [if_neg hne] at h
        by_cases hpt : (!(["half", "full", "cashOnDelivery"].contains pt)) = true
        · rw [if_pos hpt] at h
          exact Except.noConfusion (congrArg Prod.fst h)
        · rw [if_neg hpt] at h
          cases amtO with
          | none => exact Except.noConfusion (congrArg Prod.fst h)
          | some amount =>
            simp only at h
            by_cases hneg : amount < 0
            · rw [if_pos hneg] at h
              exact Except.noConfusion (congrArg Prod.fst h)
            · rw [if_neg hneg] at h
              cases hshop : db.shops.find? (fun s => s.id == sid) with
              | none =>
                rw [hshop] at h
                exact Except.noConfusion (congrArg Prod.fst h)
              | some shop =>
                simp only [hshop] at h
                by_cases hact : shop.isActive = false
                · rw [if_pos hact] at h
                  exact Except.noConfusion (congrArg Prod.fst h)
                · rw [if_neg hact] at h
                  cases hproc : processLines db.products items with
                  | mk r ps1 =>
                    cases r with
                    | error e =>
                      simp only [hproc] at h
                      exact Except.noConfusion (congrArg Prod.fst h)
                    | ok v =>
                      obtain ⟨lines, total⟩ := v
                      simp only [hproc] at h
                      injection h with h1 h2
                      injection h1 with h1'
                      exact ⟨sid, items, amount, lines, total, ps1, rfl, rfl, rfl,
                        by omega, hproc, h1'.symm, by rw [← h2, h1']⟩

/-- Comparing the values of two dyadics reduces to comparing integer
mantissas after aligning both to a common lower exponent. -/
theorem dy_val_eq_iff (a b : Dy) (m0 : Int) (hma : m0 ≤ a.e) (hmb : m0 ≤ b.e) :
    a.val = b.val ↔
      a.m * 2 ^ (a.e - m0).toNat = b.m * 2 ^ (b.e - m0).toNat := by
  have h2 : (2 : ℚ) ≠ 0 := two_ne_zero
  set ka := (a.e - m0).toNat with hka
  set kb := (b.e - m0).toNat with hkb
  have ha : a.e = m0 + (ka : Int) := by omega
  have hb : b.e = m0 + (kb : Int) := by omega
  rw [Dy.val, Dy.val, ha, hb, zpow_add₀ h2, zpow_add₀ h2, zpow_natCast, zpow_natCast]
  constructor
  · intro h
    have h' : ((a.m : ℚ) * 2 ^ ka) * 2 ^ m0
        = ((b.m : ℚ) * 2 ^ kb) * 2 ^ m0 := by
      ring_nf
      ring_nf at h
      exact h
    have h'' := mul_right_cancel₀ (zpow_ne_zero m0 h2) h'
    exact_mod_cast h''
  · intro h
    have h' : ((a.m : ℚ) * 2 ^ ka) = ((b.m : ℚ) * 2 ^ kb) := by
      exact_mod_cast h
    calc (a.m : ℚ) * (2 ^ m0 * 2 ^ ka)
        = ((a.m : ℚ) * 2 ^ ka) * 2 ^ m0 := by ring
      _ = ((b.m : ℚ) * 2 ^ kb) * 2 ^ m0 := by rw [h']
      _ = (b.m : ℚ) * (2 ^ m0 * 2 ^ kb) := by ring

/-- Claim C2: in a `PlaceOrder` call that passes the request validation and
shop checks, the line items are processed strictly in sequence, and when the
lines in `good` all succeed (producing `lines` and leaving the catalog at
`ps1`) but the next line `bad` fails with error `e`, the whole call fails with
`e` while the catalog keeps the decrements of the earlier lines (`ps1`) and
the order ledger is untouched — the final state is `db` with only `products`
replaced. -/
theorem c2_failed_line_keeps_earlier_decrements
    (db : OrderDB) (uid : Nat) (nid : String) (sid : Nat) (shop : ShopRec)
    (good : List ReqItem) (bad : ReqItem) (rest : List ReqItem)
    (pt : String) (amt : Int)
    (lines : List OrderLine) (t : Int) (ps1 : List Product) (e : OrderErr)
    (hpt : ["half", "full", "cashOnDelivery"].contains pt = true)
    (hamt : 0 ≤ amt)
    (hshop : db.shops.find? (fun s => s.id == sid) = some shop)
    (hact : shop.isActive = true)
    (hgood : processLines db.products good = (.ok (lines, t), ps1))
    (hbad : lineStep ps1 bad = .error e) :
    placeOrder db uid ⟨some sid, some (good ++ bad :: rest), pt, some amt⟩ nid
      = (.error e, { db with products := ps1 }) := by
  have hall : processLines db.products (good ++ bad :: rest) = (.error e, ps1) :=
    processLines_append_err hgood (processLines_cons_err hbad)
  simp only [placeOrder]
  rw [if_neg (by simp : ¬(good ++ bad :: rest = []))]
  rw [if_neg (by rw [hpt] ; decide : ¬((!(["half", "full", "cashOnDelivery"].contains pt)) = true))]
  rw [if_neg (by omega : ¬amt < 0)]
  simp only [hshop]
  rw [if_neg (by simp [hact] : ¬(shop.isActive = false))]
  simp only [hall]

/-- Claim C2, witness: with the demo catalog (Soap stock 10, Oil stock 4), an
order whose first line takes 3 Soap and whose second line asks for 9 Oil fails
with `InsufficientStock "Oil"`, yet Soap's stock stays decremented to 7 and no
order is recorded. -/
theorem c2_witness :
    placeOrder demoOrderDB 7
        ⟨some 5, some ([⟨some 1, some 3⟩] ++ ⟨some 2, some 9⟩ :: []), "half", some 150⟩ demoOid
      = (.error (.insufficientStock "Oil"),
         { demoOrderDB with products := [⟨1, "Soap", 100, 7⟩, ⟨2, "Oil", 50, 4⟩] }) :=
  c2_failed_line_keeps_earlier_decrements demoOrderDB 7 demoOid 5 ⟨5, true⟩
    [⟨some 1, some 3⟩] ⟨some 2, some 9⟩ [] "half" 150
    [⟨1, "Soap", 3, 100, 300⟩] 300 [⟨1, "Soap", 100, 7⟩, ⟨2, "Oil", 50, 4⟩]
    (.insufficientStock "Oil")
    (by decide) (by decide) (by decide) (by decide) (by decide) (by decide)

/-- Claim C3: a successful `PlaceOrder` decrements each stored product's
quantity by exactly the sum of the quantities the order's lines request for
it (zero for untouched products), preserving id, name and price; and if the
product's quantity was non-negative before, it stays non-negative — also when
the same product appears on several lines, because every line's sufficiency
check runs against the stock left by the earlier lines. -/
theorem c3_stock_decrement_exact
    (db : OrderDB) (uid : Nat) (req : OrderReq) (nid : String)
    (order : OrderRec) (db2 : OrderDB)
    (h : placeOrder db uid req nid = (.ok order, db2)) :
    ∀ pid p, findProduct db.products pid = some p →
      ∃ p2, findProduct db2.products pid = some p2 ∧ p2.id = p.id ∧
        p2.name = p.name ∧ p2.price = p.price ∧
        p2.quantity = p.quantity - decSum order.orderLines pid ∧
        (0 ≤ p.quantity → 0 ≤ p2.quantity) := by
  obtain ⟨sid, items, amount, lines, total, ps1, -, -, -, -, hproc, horder, hdb2⟩ :=
    placeOrder_ok_inv h
  intro pid p hp
  obtain ⟨p2, hf2, hid2, hnm2, hpr2, hqt2, hnn2⟩ := processLines_stock hproc pid p hp
  subst horder
  subst hdb2
  exact ⟨p2, hf2, hid2, hnm2, hpr2, hqt2, hnn2⟩

/-- Claim C3, witness: ordering 3 Soap and then 5 more Soap (stock 10)
succeeds and leaves Soap with quantity `10 - 8 = 2`, still non-negative. -/
theorem c3_witness :
    ∃ p2, findProduct demoDBOut.products 1 = some p2 ∧ p2.id = 1 ∧
      p2.name = "Soap" ∧ p2.price = 100 ∧
      p2.quantity = 10 - decSum demoOrderOut.orderLines 1 ∧
      (0 ≤ (10 : Int) → 0 ≤ p2.quantity) :=
  c3_stock_decrement_exact demoOrderDB 7 demoReqTwice demoOid demoOrderOut demoDBOut
    (by decide) 1 ⟨1, "Soap", 100, 10⟩ (by decide)

/-- Claim C4, amended: under exact arithmetic every successfully created
order's `totalAmount` is the exact sum of `quantity * unitPrice` over its
lines, and every line's `lineTotal` is its `quantity * unitPrice`; the code,
however, performs this accumulation on raw JS numbers (binary64), with no
conversion to cents, so the equality with the exact sum is guaranteed only
when all quantities, prices and intermediate sums are exactly representable
(for example integers below 2^53). -/
theorem c4_totalAmount_exact_sum
    (db : OrderDB) (uid : Nat) (req : OrderReq) (nid : String)
    (order : OrderRec) (db2 : OrderDB)
    (h : placeOrder db uid req nid = (.ok order, db2)) :
    order.totalAmount = linesExactTotal order.orderLines ∧
    ∀ l ∈ order.orderLines, l.lineTotal = l.quantity * l.unitPrice := by
  obtain ⟨sid, items, amount, lines, total, ps1, -, -, -, -, hproc, horder, -⟩ :=
    placeOrder_ok_inv h
  obtain ⟨ht, hl⟩ := processLines_total hproc
  subst horder
  exact ⟨ht, hl⟩

/-- Claim C4, witness for the amended theorem: the two-line Soap order has
`totalAmount = 800 = 3*100 + 5*100`. -/
theorem c4_witness :
    demoOrderOut.totalAmount = linesExactTotal demoOrderOut.orderLines ∧
    ∀ l ∈ demoOrderOut.orderLines, l.lineTotal = l.quantity * l.unitPrice :=
  c4_totalAmount_exact_sum demoOrderDB 7 demoReqTwice demoOid demoOrderOut demoDBOut
    (by decide)

/-- Claim C4, counterexample: the accumulation is NOT carried out in
cents/integer-safe arithmetic — it is plain binary64 arithmetic, and floating
drift can make `totalAmount` differ from the exact sum.  For an order with
one unit priced `0.1` and one unit priced `0.4` (their binary64 values), the
code computes `totalAmount = 0.5` (mantissa 4503599627370496, exponent -53),
while the exact sum of `quantity * unitPrice` is
`18014398509481985 * 2^(-55)`, strictly greater: the two values differ. -/
theorem c4_counterexample :
    totalAmountFloat driftLines = ⟨4503599627370496, -53⟩ ∧
    totalAmountExactDy driftLines = ⟨18014398509481985, -55⟩ ∧
    Dy.val (totalAmountFloat driftLines) ≠ Dy.val (totalAmountExactDy driftLines) := by
  refine ⟨by decide, by decide, ?_⟩
  intro hval
  rw [show totalAmountFloat driftLines = ⟨4503599627370496, -53⟩ from by decide,
    show totalAmountExactDy driftLines = ⟨18014398509481985, -55⟩ from by decide,
    dy_val_eq_iff ⟨4503599627370496, -53⟩ ⟨18014398509481985, -55⟩ (-55)
      (by decide) (by decide)] at hval
  revert hval
  decide

/-- The order returned by an id lookup carries the looked-up id. -/
theorem findOrder_id {os : List OrderRec} {oid : String} {o : OrderRec}
    (h : os.find? (fun x => x.id == oid) = some o) : o.id = oid := by
  have := List.find?_some h
  simpa using this

/-- Saving an order whose id is the looked-up id makes the lookup return it. -/
theorem findOrder_save (os : List OrderRec) (o : OrderRec) (oid : String)
    (hid : o.id = oid) :
    (saveOrder os o).find? (fun x => x.id == oid)
      = (os.find? (fun x => x.id == oid)).map fun _ => o := by
  induction os with
  | nil => rfl
  | cons x xs ih =>
    by_cases hx : x.id = o.id
    · rw [saveOrder, List.map_cons, if_pos hx,
        List.find?_cons_of_pos _ (by simp [hid]),
        List.find?_cons_of_pos _ (by simp [hx, hid])]
      rfl
    · rw [saveOrder, List.map_cons, if_neg hx,
        List.find?_cons_of_neg _ (by simp [hx, ← hid]),
        List.find?_cons_of_neg _ (by simp [hx, ← hid])]
      exact ih

/-- Saving the same order twice is the same as saving it once. -/
theorem saveOrder_idem (os : List OrderRec) (o : OrderRec) :
    saveOrder (saveOrder os o) o = saveOrder os o := by
  induction os with
  | nil => rfl
  | cons x xs ih =>
    simp only [saveOrder, List.map_cons] at *
    by_cases hx : x.id = o.id
    · rw [if_pos hx, if_pos (rfl : o.id = o.id), ih]
    · rw [if_neg hx, if_neg hx, ih]

/-- Inversion of a successful `recordPayment`. -/
theorem recordPayment_ok_inv {db : OrderDB} {oid : String} {amt : Option Int}
    {o2 : OrderRec} {db2 : OrderDB}
    (h : recordPayment db oid amt = (.ok o2, db2)) :
    ∃ a o, isValidObjectId oid = true ∧ amt = some a ∧ 0 ≤ a ∧
      db.orders.find? (fun x => x.id == oid) = some o ∧ a ≤ o.totalAmount ∧
      o2 = { o with amountPaid := a } ∧
      db2 = { db with orders := saveOrder db.orders o2 } := by
  rw [recordPayment.eq_def] at h
  cases hv : isValidObjectId oid with
  | false =>
    rw [if_pos (by rw [hv] ; rfl)] at h
    exact Except.noConfusion (congrArg Prod.fst h)
  | true =>
    rw [if_neg (by rw [hv] ; decide)] at h
    cases amt with
    | none => exact Except.noConfusion (congrArg Prod.fst h)
    | some a =>
      simp only at h
      by_cases hneg : a < 0
      · rw [if_pos hneg] at h
        exact Except.noConfusion (congrArg Prod.fst h)
      · rw [if_neg hneg] at h
        cases hfind : db.orders.find? (fun x => x.id == oid) with
        | none =>
          rw [hfind] at h
          exact Except.noConfusion (congrArg Prod.fst h)
        | some o =>
          simp only [hfind] at h
          by_cases hlt : o.totalAmount < a
          · rw [if_pos hlt] at h
            exact Except.noConfusion (congrArg Prod.fst h)
          · rw [if_neg hlt] at h
            injection h with h1 h2
            injection h1 with h1'
            exact ⟨a, o, rfl, rfl, by omega, rfl, by omega, h1'.symm, by rw [← h2, h1']⟩

/-- Claim C5: the `RecordPayment` contract.  A malformed order id, a missing
or non-numeric `amountPaid`, a negative amount, an unknown order, and an
amount exceeding the order's `totalAmount` each fail with the corresponding
error and leave the state untouched; an accepted amount replaces (does not
add to) the stored `amountPaid`; and a successful call is idempotent:
repeating it with the same value returns the same order and the same state. -/
theorem c5_recordPayment_contract (db : OrderDB) (oid : String) (amt : Option Int) :
    (isValidObjectId oid = false → recordPayment db oid amt = (.error .validationError, db)) ∧
    (isValidObjectId oid = true → amt = none →
      recordPayment db oid amt = (.error .validationError, db)) ∧
    (∀ a, isValidObjectId oid = true → amt = some a → a < 0 →
      recordPayment db oid amt = (.error .validationError, db)) ∧
    (∀ a, isValidObjectId oid = true → amt = some a → 0 ≤ a →
      db.orders.find? (fun x => x.id == oid) = none →
      recordPayment db oid amt = (.error .orderNotFound, db)) ∧
    (∀ a o, isValidObjectId oid = true → amt = some a → 0 ≤ a →
      db.orders.find? (fun x => x.id == oid) = some o → o.totalAmount < a →
      recordPayment db oid amt = (.error .validationError, db)) ∧
    (∀ a o, isValidObjectId oid = true → amt = some a → 0 ≤ a →
      db.orders.find? (fun x => x.id == oid) = some o → a ≤ o.totalAmount →
      recordPayment db oid amt =
        (.ok { o with amountPaid := a },
         { db with orders := saveOrder db.orders { o with amountPaid := a } })) ∧
    (∀ o2 db2, recordPayment db oid amt = (.ok o2, db2) →
      recordPayment db2 oid amt = (.ok o2, db2)) := by
  refine ⟨?_, ?_, ?_, ?_, ?_, ?_, ?_⟩
  · intro hv
    rw [recordPayment.eq_def, if_pos (by rw [hv] ; rfl)]
  · intro hv hnone
    rw [recordPayment.eq_def, if_neg (by rw [hv] ; decide), hnone]
  · intro a hv ha hneg
    rw [recordPayment.eq_def, if_neg (by rw [hv] ; decide), ha]
    simp only
    rw [if_pos hneg]
  · intro a hv ha hnn hfind
    rw [recordPayment.eq_def, if_neg (by rw [hv] ; decide), ha]
    simp only
    rw [if_neg (by omega), hfind]
  · intro a o hv ha hnn hfind hlt
    rw [recordPayment.eq_def, if_neg (by rw [hv] ; decide), ha]
    simp only
    rw [if_neg (by omega)]
    simp only [hfind]
    rw [if_pos hlt]
  · intro a o hv ha hnn hfind hle
    rw [recordPayment.eq_def, if_neg (by rw [hv] ; decide), ha]
    simp only
    rw [if_neg (by omega)]
    simp only [hfind]
    rw [if_neg (by omega)]
  · intro o2 db2 hok
    obtain ⟨a, o, hv, ha, hnn, hfind, hle, ho2, hdb2⟩ := recordPayment_ok_inv hok
    have hoid : o.id = oid := findOrder_id hfind
    have ho2id : o2.id = oid := by rw [ho2] ; exact hoid
    have hfind2 : db2.orders.find? (fun x => x.id == oid) = some o2 := by
      rw [hdb2]
      show (saveOrder db.orders o2).find? (fun x => x.id == oid) = some o2
      rw [findOrder_save db.orders o2 oid ho2id, hfind]
      rfl
    rw [recordPayment.eq_def, if_neg (by rw [hv] ; decide), ha]
    simp only
    rw [if_neg (by omega)]
    simp only [hfind2]
    rw [if_neg (show ¬o2.totalAmount < a by rw [ho2] ; show ¬o.totalAmount < a ; omega)]
    have ho2' : { o2 with amountPaid := a } = o2 := by
      rw [ho2]
    have hsave : saveOrder db2.orders o2 = db2.orders := by
      rw [hdb2]
      show saveOrder (saveOrder db.orders o2) o2 = saveOrder db.orders o2
      exact saveOrder_idem db.orders o2
    rw [ho2', hsave]

/-- Claim C5, witness: paying 300 against the demo order (total 300) stores
`amountPaid = 300`, and repeating the same call returns the same order and
leaves the state unchanged. -/
theorem c5_witness :
    recordPayment demoPayDB demoOid (some 300) =
      (.ok { demoOrder0 with amountPaid := 300 },
       { demoPayDB with orders := saveOrder demoPayDB.orders { demoOrder0 with amountPaid := 300 } }) ∧
    recordPayment
        { demoPayDB with orders := saveOrder demoPayDB.orders { demoOrder0 with amountPaid := 300 } }
        demoOid (some 300) =
      (.ok { demoOrder0 with amountPaid := 300 },
       { demoPayDB with orders := saveOrder demoPayDB.orders { demoOrder0 with amountPaid := 300 } }) := by
  obtain ⟨-, -, -, -, -, h6, h7⟩ := c5_recordPayment_contract demoPayDB demoOid (some 300)
  have hfirst := h6 300 demoOrder0 (by decide) rfl (by decide) (by decide) (by decide)
  exact ⟨hfirst, h7 _ _ hfirst⟩

/-- Saving a user found by email (keeping its id and email) makes the lookup
by that email return the saved user. -/
theorem findOneByEmail_updateUser (users : List UserRec) (e : String) (u u2 : UserRec)
    (hu : findOneByEmail users e = some u) (hid : u2.id = u.id)
    (hem : u2.email = u.email) :
    findOneByEmail (updateUser users u2) e = some u2 := by
  have hue : (u.email == some e) = true := by simpa using List.find?_some hu
  have hue2 : (u2.email == some e) = true := by rw [hem] ; exact hue
  induction users with
  | nil => simp [findOneByEmail] at hu
  | cons x xs ih =>
    simp only [findOneByEmail, List.find?] at hu
    simp only [updateUser, List.map_cons, findOneByEmail, List.find?]
    by_cases hpx : (x.email == some e) = true
    · simp only [hpx] at hu
      have hxu : x = u := Option.some.inj hu
      rw [if_pos (by rw [hxu, hid])]
      simp only [hue2]
    · rw [Bool.not_eq_true] at hpx
      simp only [hpx] at hu
      by_cases hxid : x.id = u2.id
      · rw [if_pos hxid]
        simp only [hue2]
      · rw [if_neg hxid]
        simp only [hpx]
        exact ih hu

/-- Unfolding of `verifyCode` when the email is present and resolves to a
stored user: the outcome is the hash-and-expiry comparison on that user. -/
theorem verifyCode_found (users : List UserRec) (email : String) (code : Nat)
    (now : Int) (u : UserRec)
    (hem : email ≠ "") (hu : findOneByEmail users email = some u) :
    verifyCode users email (some code) now =
      if (u.resetCode == some (hashOTP code))
          && (match u.resetCodeExpiry with
              | none => false
              | some exp => decide (now ≤ exp)) then .ok ()
      else .error .invalidOrExpiredCode := by
  simp only [verifyCode]
  rw [if_neg hem]
  simp only [hu]

/-- Claim C6: the password-reset round trip.  For an existing user and a
freshly generated 6-digit code, `forgotPassword` succeeds and stores only the
one-way hash of the code (which differs from the plaintext code) together
with a 10-minute (600000 ms) expiry; then `verifyCode` with the correct code
at or before the expiry succeeds, with any other 6-digit code fails
`InvalidOrExpiredCode`, and with the correct code after the expiry has passed
also fails `InvalidOrExpiredCode`. -/
theorem c6_password_reset_round_trip (users : List UserRec) (email : String)
    (u : UserRec) (c : Nat) (t : Int)
    (hem : email ≠ "") (hu : findOneByEmail users email = some u)
    (hc1 : 100000 ≤ c) (hc2 : c ≤ 999999) :
    ∃ users2,
      forgotPassword users email c t = (.ok (), users2) ∧
      findOneByEmail users2 email
        = some { u with resetCode := some (hashOTP c),
                        resetCodeExpiry := some (t + 10 * 60 * 1000) } ∧
      hashOTP c ≠ c ∧
      (∀ t2, t2 ≤ t + 10 * 60 * 1000 → verifyCode users2 email (some c) t2 = .ok ()) ∧
      (∀ c2, 100000 ≤ c2 → c2 ≤ 999999 → c2 ≠ c → ∀ t2,
        verifyCode users2 email (some c2) t2 = .error .invalidOrExpiredCode) ∧
      (∀ t2, t + 10 * 60 * 1000 < t2 →
        verifyCode users2 email (some c) t2 = .error .invalidOrExpiredCode) := by
  have hfind2 : findOneByEmail
      (updateUser users { u with resetCode := some (hashOTP c),
                                 resetCodeExpiry := some (t + 10 * 60 * 1000) }) email
      = some { u with resetCode := some (hashOTP c),
                      resetCodeExpiry := some (t + 10 * 60 * 1000) } :=
    findOneByEmail_updateUser users email u _ hu rfl rfl
  have hself : ((some (hashOTP c) : Option Nat) == some (hashOTP c)) = true :=
    beq_self_eq_true _
  refine ⟨_, ?_, hfind2, ?_, ?_, ?_, ?_⟩
  · simp only [forgotPassword]
    rw [if_neg hem]
    simp only [hu]
  · show c + 1000000 ≠ c
    omega
  · intro t2 ht2
    rw [verifyCode_found _ _ _ _ _ hem hfind2]
    have h2 : decide (t2 ≤ t + 10 * 60 * 1000) = true := decide_eq_true ht2
    exact if_pos (show (((some (hashOTP c) : Option Nat) == some (hashOTP c))
      && decide (t2 ≤ t + 10 * 60 * 1000)) = true from by rw [hself, h2] ; rfl)
  · intro c2 hc21 hc22 hne t2
    rw [verifyCode_found _ _ _ _ _ hem hfind2]
    have hdiff : ((some (hashOTP c) : Option Nat) == some (hashOTP c2)) = false := by
      refine beq_eq_false_iff_ne.mpr (fun hcontra => ?_)
      have hh : hashOTP c = hashOTP c2 := Option.some.inj hcontra
      have hh2 : c + 1000000 = c2 + 1000000 := hh
      omega
    exact if_neg (ne_true_of_eq_false
      (show (((some (hashOTP c) : Option Nat) == some (hashOTP c2))
        && decide (t2 ≤ t + 10 * 60 * 1000)) = false from by rw [hdiff, Bool.false_and]))
  · intro t2 ht2
    rw [verifyCode_found _ _ _ _ _ hem hfind2]
    have h2 : decide (t2 ≤ t + 10 * 60 * 1000) = false := decide_eq_false (by omega)
    exact if_neg (ne_true_of_eq_false
      (show (((some (hashOTP c) : Option Nat) == some (hashOTP c))
        && decide (t2 ≤ t + 10 * 60 * 1000)) = false
       from by rw [hself, h2, Bool.true_and]))

/-- Claim C6, witness: for the demo user, code 123456 issued at time 0 is
stored hashed with expiry 600000; verifying 123456 at time 600000 succeeds,
verifying 654321 fails, and verifying 123456 at time 600001 fails. -/
theorem c6_witness :
    ∃ users2,
      forgotPassword demoUsers "s@x.com" 123456 0 = (.ok (), users2) ∧
      findOneByEmail users2 "s@x.com"
        = some { demoUser1 with resetCode := some (hashOTP 123456),
                                resetCodeExpiry := some (0 + 10 * 60 * 1000) } ∧
      hashOTP 123456 ≠ 123456 ∧
      (∀ t2, t2 ≤ 0 + 10 * 60 * 1000 →
        verifyCode users2 "s@x.com" (some 123456) t2 = .ok ()) ∧
      (∀ c2, 100000 ≤ c2 → c2 ≤ 999999 → c2 ≠ 123456 → ∀ t2,
        verifyCode users2 "s@x.com" (some c2) t2 = .error .invalidOrExpiredCode) ∧
      (∀ t2, 0 + 10 * 60 * 1000 < t2 →
        verifyCode users2 "s@x.com" (some 123456) t2 = .error .invalidOrExpiredCode) :=
  c6_password_reset_round_trip demoUsers "s@x.com" demoUser1 123456 0
    (by decide) (by decide) (by decide) (by decide)

/-- Claim C7, counterexample: in a Change Password call where the old
password is wrong AND the new password violates the policy, the handler
answers `WeakPassword`, not `InvalidCredentials`: the new-password policy is
checked BEFORE the old password is verified, contrary to the claimed order. -/
theorem c7_counterexample :
    (changePassword demoUsers 1 "WrongOld1!" "short").1 = .error .weakPassword ∧
    findUserById demoUsers 1 = some demoUser1 ∧
    bcryptCompare "WrongOld1!" demoUser1.password = false ∧
    (Except.error AuthErr.weakPassword : Except AuthErr Unit)
      ≠ .error .invalidCredentials := by
  decide

/-- Claim C7, amended: Change Password validates the NEW password against the
policy first, failing `WeakPassword` (whatever the old password is); only
then is the old password compared, failing `InvalidCredentials` on mismatch;
on success the new hash is stored and the stored refresh token is set to
null. -/
theorem c7_policy_checked_before_old_password
    (users : List UserRec) (uid : Nat) (oldPw newPw : String) :
    (oldPw ≠ "" → newPw ≠ "" → validPassword newPw = false →
      changePassword users uid oldPw newPw = (.error .weakPassword, users)) ∧
    (∀ u, oldPw ≠ "" → newPw ≠ "" → validPassword newPw = true →
      findUserById users uid = some u → bcryptCompare oldPw u.password = false →
      changePassword users uid oldPw newPw = (.error .invalidCredentials, users)) ∧
    (∀ u, oldPw ≠ "" → newPw ≠ "" → validPassword newPw = true →
      findUserById users uid = some u → bcryptCompare oldPw u.password = true →
      changePassword users uid oldPw newPw =
        (.ok (), updateUser users
          { u with password := hashPassword newPw, refreshToken := none })) := by
  refine ⟨?_, ?_, ?_⟩
  · intro ho hn hw
    simp only [changePassword]
    rw [if_neg (by simp [ho, hn]), if_pos (by simp [hw])]
  · intro u ho hn hv hfind hcmp
    simp only [changePassword]
    rw [if_neg (by simp [ho, hn]), if_neg (by simp [hv])]
    simp only [hfind]
    rw [if_neg (by simp [hcmp])]
  · intro u ho hn hv hfind hcmp
    simp only [changePassword]
    rw [if_neg (by simp [ho, hn]), if_neg (by simp [hv])]
    simp only [hfind]
    rw [if_pos hcmp]

/-- Claim C7, witness for the amended theorem: with the correct old password
the demo user's password is replaced by the new hash and the refresh token is
nulled; with a wrong old password (and a policy-satisfying new password) the
call fails `InvalidCredentials`. -/
theorem c7_witness :
    changePassword demoUsers 1 "Passw0rd!" "NewPass1!" =
      (.ok (), updateUser demoUsers
        { demoUser1 with password := hashPassword "NewPass1!", refreshToken := none }) ∧
    changePassword demoUsers 1 "WrongOld1!" "NewPass1!" =
      (.error .invalidCredentials, demoUsers) := by
  constructor
  · exact (c7_policy_checked_before_old_password demoUsers 1 "Passw0rd!" "NewPass1!").2.2
      demoUser1 (by decide) (by decide) (by decide) (by decide) (by decide)
  · exact (c7_policy_checked_before_old_password demoUsers 1 "WrongOld1!" "NewPass1!").2.1
      demoUser1 (by decide) (by decide) (by decide) (by decide) (by decide)

/-- Claim C8: the Refresh contract.  The user is looked up by the stored
refresh-token value; the call fails `InvalidToken` when no user matches or
when cryptographic verification fails; on success a new access token carrying
the user's `{id, role}` is issued and the credential store is returned
unchanged — in particular the stored refresh token is not modified. -/
theorem c8_refresh_frame (users : List UserRec) (tok : String)
    (jwtValid : String → Bool) (htok : tok ≠ "") :
    (users.find? (fun u => u.refreshToken == some tok) = none →
      refreshRoute users tok jwtValid = (.error .invalidToken, users)) ∧
    (∀ u, users.find? (fun u => u.refreshToken == some tok) = some u →
      jwtValid tok = false →
      refreshRoute users tok jwtValid = (.error .invalidToken, users)) ∧
    (∀ u, users.find? (fun u => u.refreshToken == some tok) = some u →
      jwtValid tok = true →
      refreshRoute users tok jwtValid = (.ok ⟨u.id, u.role⟩, users)) := by
  refine ⟨?_, ?_, ?_⟩
  · intro hfind
    simp only [refreshRoute]
    rw [if_neg htok]
    simp only [hfind]
  · intro u hfind hv
    simp only [refreshRoute]
    rw [if_neg htok]
    simp only [hfind]
    rw [if_neg (by simp [hv])]
  · intro u hfind hv
    simp only [refreshRoute]
    rw [if_neg htok]
    simp only [hfind]
    rw [if_pos hv]

/-- Claim C8, witness: the token "rtok" stored for the demo admin yields a new
access token for `{id 2, role admin}` when verification succeeds and
`InvalidToken` when it fails; in both cases the store is unchanged. -/
theorem c8_witness :
    refreshRoute demoUsers "rtok" (fun _ => true) = (.ok ⟨2, "admin"⟩, demoUsers) ∧
    refreshRoute demoUsers "rtok" (fun _ => false) = (.error .invalidToken, demoUsers) := by
  constructor
  · exact (c8_refresh_frame demoUsers "rtok" (fun _ => true) (by decide)).2.2
      demoUser2 (by decide) rfl
  · exact (c8_refresh_frame demoUsers "rtok" (fun _ => false) (by decide)).2.1
      demoUser2 (by decide) rfl

/-- Claim C9: every user created by a successful Signup has role "admin", and
the handler ignores any role supplied in the request body — changing the
request's role field does not change the outcome at all. -/
theorem c9_signup_always_admin (users : List UserRec) (req : SignupReq) (newId : Nat)
    (u : UserRec) (users2 : List UserRec)
    (h : signup users req newId = (.ok u, users2)) :
    u.role = "admin" ∧
    ∀ r, signup users { req with role := r } newId = signup users req newId := by
  constructor
  · simp only [signup] at h
    by_cases hpres : req.name = "" ∨ req.phone = "" ∨ req.address = "" ∨ req.password = ""
    · rw [if_pos hpres] at h
      exact Except.noConfusion (congrArg Prod.fst h)
    · rw [if_neg hpres] at h
      by_cases hvp : (!validPassword req.password) = true
      · rw [if_pos hvp] at h
        exact Except.noConfusion (congrArg Prod.fst h)
      · rw [if_neg hvp] at h
        cases hex : findOneEmailOpt users req.email with
        | some w =>
          simp only [hex] at h
          exact Except.noConfusion (congrArg Prod.fst h)
        | none =>
          simp only [hex] at h
          injection h with h1 h2
          injection h1 with h1'
          rw [← h1']
  · intro r
    rfl

/-- Claim C9, witness: signing up with a request that asks for role
"salesman" creates `demoNewUser`, whose role is "admin". -/
theorem c9_witness :
    demoNewUser.role = "admin" ∧
    ∀ r, signup demoUsers { demoSignupReq with role := r } 10
      = signup demoUsers demoSignupReq 10 :=
  c9_signup_always_admin demoUsers demoSignupReq 10 demoNewUser
    (demoUsers ++ [demoNewUser]) (by decide)

/-- Claim C10: Login on an existing account with `isActive = false` answers
`AccountBlocked` whatever password is supplied — the active-flag check runs
after the user lookup but before the password comparison, so even a caller
who does not know the password learns that the account is blocked.  The
store is left unchanged. -/
theorem c10_login_blocked_before_password (users : List UserRec)
    (email pw rt : String) (u : UserRec)
    (hem : email ≠ "") (hpw : pw ≠ "")
    (hu : findOneByEmail users email = some u) (hb : u.isActive = false) :
    login users email pw rt = (.error .accountBlocked, users) := by
  simp only [login]
  rw [if_neg (by simp [hem, hpw])]
  simp only [hu]
  rw [if_pos hb]

/-- Claim C10, witness: the blocked demo user with a password that does NOT
match the stored hash still gets `AccountBlocked` (not
`InvalidCredentials`). -/
theorem c10_witness :
    login demoUsers "s@x.com" "nope" "rt" = (.error .accountBlocked, demoUsers) ∧
    bcryptCompare "nope" demoUser1.password = false :=
  ⟨c10_login_blocked_before_password demoUsers "s@x.com" "nope" "rt" demoUser1
      (by decide) (by decide) (by decide) (by decide),
   by decide⟩

end BeSaleman
